import Mathlib

/-!
Verification development for the timeout-bounded regex matching subsystem
(`super-regex`): a shallow embedding of `index.js` into Lean 4, together with
theorems settling the specified behavioural claims.

Conventions of the embedding:
* JavaScript numbers that can be `NaN`/`±Infinity` are modelled by `JSNum`
  (finite values as rationals).
* Fallible JavaScript computations are modelled with `Except JSError`.
* Wall-clock behaviour is modelled by attaching an explicit cost (elapsed
  milliseconds, a rational) to each computation; the external bounded
  executor (`function-timeout`) and the worker facility (`make-asynchronous`)
  are modelled from the spec's contracts since their code is not part of
  this repository.
* The regular-expression engine is out of scope for the repository and is
  modelled as an explicit `RegexEngine` parameter (spec §1: the engine is an
  opaque capability "compile pattern, execute from start, produce start
  offset + captures + named captures").
-/

namespace SuperRegex

/-- JavaScript double used as a timeout value: `NaN`, `±Infinity`, or a
finite value (modelled as a rational, which covers every finite double). -/
inductive JSNum where
  | nan
  | posInf
  | negInf
  | finite (q : ℚ)
deriving DecidableEq

/-- JavaScript `Number.isNaN`. -/
def JSNum.isNaNb : JSNum → Bool
  | .nan => true
  | _ => false

/-- JavaScript `Number.isFinite`. -/
def JSNum.isFiniteb : JSNum → Bool
  | .finite _ => true
  | _ => false

/-- JavaScript comparison `x <= 0` (false on `NaN`). -/
def JSNum.le0b : JSNum → Bool
  | .nan => false
  | .posInf => false
  | .negInf => true
  | .finite q => decide (q ≤ 0)

/-- JavaScript `Math.min` on two values (`NaN` is contagious). -/
def jsMin : JSNum → JSNum → JSNum
  | .nan, _ => .nan
  | _, .nan => .nan
  | .negInf, _ => .negInf
  | _, .negInf => .negInf
  | .posInf, y => y
  | x, .posInf => x
  | .finite a, .finite b => .finite (min a b)

/-- JavaScript subtraction `x - n` of an integer from a `JSNum`. -/
def jsSubInt : JSNum → ℤ → JSNum
  | .nan, _ => .nan
  | .posInf, _ => .posInf
  | .negInf, _ => .negInf
  | .finite q, n => .finite (q - n)

/-- JavaScript `Math.trunc` on a finite value: round toward zero
(computed on the reduced numerator and denominator). -/
def ratTrunc (q : ℚ) : ℤ :=
  if q.num < 0 then -((q.num.natAbs / q.den : ℕ) : ℤ) else ((q.num.natAbs / q.den : ℕ) : ℤ)

/-- The floor of a rational, computed on the reduced numerator and
denominator. -/
def ratFloor (q : ℚ) : ℤ :=
  if q.num < 0 then -(((q.num.natAbs + q.den - 1) / q.den : ℕ) : ℤ)
  else ((q.num.natAbs / q.den : ℕ) : ℤ)

/-- JavaScript `Math.ceil` on a finite value. -/
def ratCeil (q : ℚ) : ℤ :=
  -(ratFloor (-q))

/-- Errors observable from the library: the synchronous executor's timeout
error (carrying code `ERR_SCRIPT_EXECUTION_TIMEOUT`), the isolated regime's
`AbortError` and the `TimeoutError` it is converted to under
`throwOnTimeout`, the configuration error thrown for a missing global flag,
and errors raised by the matching engine itself. -/
inductive JSError where
  | scriptTimeout
  | abortError
  | timeoutError
  | configError (msg : String)
  | engineError (msg : String)
deriving DecidableEq

/-- The `isTimeoutError` predicate of the `function-timeout` package: it
recognises exactly the executor's timeout error. -/
def isTimeoutError : JSError → Bool
  | .scriptTimeout => true
  | _ => false

/-- A synchronous computation together with its wall-clock running time in
milliseconds. -/
structure Comp (α : Type) where
  cost : ℚ
  result : Except JSError α

/-- Modelled from the spec: the Synchronous Bounded Executor (the external
`function-timeout` package, spec §4.4). `run(computation, timeout)` returns
the computation's value when it settles by the deadline, and fails with the
executor's timeout error when the computation has not returned by the
deadline; with no timeout it runs without any deadline machinery. The
normalized timeout handed to it is either absent or a positive integer. -/
def functionTimeout {α : Type} (c : Comp α) (timeout : Option ℕ) : Except JSError α :=
  match timeout with
  | none => c.result
  | some d => if (d : ℚ) < c.cost then .error .scriptTimeout else c.result

/-- Translation of `normalizeTimeout` (source lines 68–82). The source first
filters `undefined`/`NaN`, then computes `Math.max(1, Math.trunc(Math.abs(timeout)))`
and returns `undefined` when that is not finite. For `±Infinity` the
absolute value is `Infinity`, which survives `trunc` and `max` and is
rejected by the finiteness guard; for a finite input the result is the
finite clamped integer. -/
def normalizeTimeout : Option JSNum → Option ℕ
  | none => none
  | some .nan => none
  | some .posInf => none
  | some .negInf => none
  | some (.finite q) => some (max 1 (ratTrunc |q|).toNat)

/-- A caller-supplied `RegExp` object: source text, flags and the mutable
matching-position state `lastIndex`. -/
structure RegexObj where
  source : String
  flags : String
  lastIndex : ℕ
deriving DecidableEq

/-- JavaScript `regex.global`: whether the flags contain `g`. -/
def RegexObj.global (r : RegexObj) : Bool :=
  r.flags.toList.contains ('g')

/-- JavaScript `structuredClone` on a `RegExp`: source and flags are
preserved; `lastIndex` is not part of the serialized state, so the clone
starts at position `0`. -/
def structuredCloneRegex (r : RegexObj) : RegexObj :=
  { r with lastIndex := 0 }

/-- A raw engine match result, i.e. the array returned by `RegExp#exec`:
`result[0]`, `result.index`, `result.slice(1)`, `result.groups`
(`none` models `undefined`, for a pattern with no named groups), and
`result.input`. -/
structure RawMatch where
  matched : String
  index : ℕ
  captures : List (Option String)
  groups : Option (List (String × Option String))
  input : String
deriving DecidableEq

/-- The canonical `Match` record returned by the library. -/
structure Match where
  «match» : String
  index : ℕ
  groups : List (Option String)
  namedGroups : List (String × Option String)
  input : String
deriving DecidableEq

/-- Translation of `resultToMatch` (source lines 58–64):
`{match: result[0], index: result.index, groups: result.slice(1),
namedGroups: result.groups ?? {}, input: result.input}`. -/
def resultToMatch (result : RawMatch) : Match :=
  { «match» := result.matched
    index := result.index
    groups := result.captures
    namedGroups := result.groups.getD []
    input := result.input }

/-- Translation of the match-record literal duplicated inside
`firstMatchWorker` (source lines 192–198); workers cannot reach
`resultToMatch`, so the structure is written out again there. -/
def firstMatchWorkerMatch (result : RawMatch) : Match :=
  { «match» := result.matched
    index := result.index
    groups := result.captures
    namedGroups := result.groups.getD []
    input := result.input }

/-- Translation of the match-record literal duplicated inside
`matchesWorker` (source lines 207–213). -/
def matchesWorkerMatch (m : RawMatch) : Match :=
  { «match» := m.matched
    index := m.index
    groups := m.captures
    namedGroups := m.groups.getD []
    input := m.input }

/-- Modelled from the spec: the regular-expression engine (spec §1, out of
scope for the repository) as an opaque capability. `execAt source flags
input start` executes the compiled pattern against `input` from position
`start`, returning the first raw match at or after that position, no match,
or an engine error. -/
structure RegexEngine where
  execAt : String → String → String → ℕ → Except JSError (Option RawMatch)

/-- JavaScript `RegExp#exec` run on a regex object: reads the object's
`lastIndex`, and on a global regex writes the position state back (end of
the match on success, `0` on failure). Returned with the possibly mutated
regex object, making the engine's mutation of position state explicit. -/
def execOn (E : RegexEngine) (re : RegexObj) (s : String) :
    Except JSError (Option RawMatch) × RegexObj :=
  match E.execAt re.source re.flags s re.lastIndex with
  | .error e => (.error e, re)
  | .ok none => (.ok none, if re.global then { re with lastIndex := 0 } else re)
  | .ok (some m) =>
      (.ok (some m),
        if re.global then { re with lastIndex := m.index + m.matched.length } else re)

/-- Translation of the body of `isMatch` (source lines 84–94), factored over
an arbitrary computation: run it through the bounded executor under the
normalized timeout; catch a timeout error and convert it to `false` unless
`throwOnTimeout`; re-throw every other error unchanged. -/
def isMatchCore (computation : Comp Bool) (timeout : Option JSNum)
    (throwOnTimeout : Bool) : Except JSError Bool :=
  match functionTimeout computation (normalizeTimeout timeout) with
  | .ok b => .ok b
  | .error e => if isTimeoutError e && !throwOnTimeout then .ok false else .error e

/-- Translation of the body of `firstMatch` (source lines 96–112), factored
over an arbitrary computation: a `null` engine result becomes `undefined`
(`none`), a raw result is normalized through `resultToMatch`; a timeout is
converted to `undefined` unless `throwOnTimeout`; other errors re-throw. -/
def firstMatchCore (computation : Comp (Option RawMatch)) (timeout : Option JSNum)
    (throwOnTimeout : Bool) : Except JSError (Option Match) :=
  match functionTimeout computation (normalizeTimeout timeout) with
  | .ok none => .ok none
  | .ok (some result) => .ok (some (resultToMatch result))
  | .error e => if isTimeoutError e && !throwOnTimeout then .ok none else .error e

/-- `isMatch(regex, string, {timeout, throwOnTimeout})` (source lines
84–94): the computation is `structuredClone(regex).test(string)` — the
engine runs on the clone, the caller's regex object is returned untouched.
`cost` is the wall-clock time the test takes. -/
def isMatchE (E : RegexEngine) (cost : ℚ) (regex : RegexObj) (string : String)
    (timeout : Option JSNum) (throwOnTimeout : Bool) :
    Except JSError Bool × RegexObj :=
  (isMatchCore
      ⟨cost, ((execOn E (structuredCloneRegex regex) string).1).map Option.isSome⟩
      timeout throwOnTimeout,
    regex)

/-- `firstMatch(regex, string, {timeout, throwOnTimeout})` (source lines
96–112): the computation is `structuredClone(regex).exec(string)`. -/
def firstMatchE (E : RegexEngine) (cost : ℚ) (regex : RegexObj) (string : String)
    (timeout : Option JSNum) (throwOnTimeout : Bool) :
    Except JSError (Option Match) × RegexObj :=
  (firstMatchCore ⟨cost, (execOn E (structuredCloneRegex regex) string).1⟩
      timeout throwOnTimeout,
    regex)

/-- One observed step of the underlying `string.matchAll(...)` iterator:
`matches.next()` either yields a raw match, reports exhaustion (`done`), or
throws. -/
inductive StepRes where
  | yieldR (m : RawMatch)
  | done
  | err (e : JSError)
deriving DecidableEq

/-- A traced iterator step (cost of the `matches.next()` call, outcome) as
the computation handed to the bounded executor. -/
def stepComp (st : ℚ × StepRes) : Comp (Option RawMatch) :=
  ⟨st.1,
    match st.2 with
    | .yieldR m => .ok (some m)
    | .done => .ok none
    | .err e => .error e⟩

/-- The per-attempt deadline computation of `matches` (source lines
143–145): when either the configured total timeout or the per-match timeout
is not `+Infinity`, normalize `Math.min(remainingTimeout, matchTimeout)`;
otherwise run the attempt with no deadline. -/
def effectiveDeadline (timeout matchTimeout remaining : JSNum) : Option ℕ :=
  if timeout ≠ JSNum.posInf ∨ matchTimeout ≠ JSNum.posInf then
    normalizeTimeout (some (jsMin remaining matchTimeout))
  else none

/-- Translation of the generator body of `matches` (source lines 123–170),
as a function of the loop state: `remaining` is `remainingTimeout`, and the
trace of the underlying `matchAll` iterator is the list of remaining steps.
Per iteration: (1) the pre-attempt exhaustion check
`timeout !== Number.POSITIVE_INFINITY && remainingTimeout <= 0` ends the
sequence (throwing the executor-style timeout error under `throwOnTimeout`,
which the surrounding catch re-throws); (2) the per-attempt deadline is
the `effectiveDeadline` above; (3) one `matches.next()` step runs under the
deadline; a timeout ends the sequence per `throwOnTimeout`, another error
re-throws, `done` ends normally, and a value is decremented against the
budget (`remainingTimeout -= Math.ceil(end())`), normalized and yielded. An
empty trace stands for an iterator that reports `done` (at no cost). -/
def matchesGo (throwOnTimeout : Bool) (timeout matchTimeout : JSNum) :
    JSNum → List (ℚ × StepRes) → List Match × Option JSError
  | remaining, [] =>
    if timeout ≠ JSNum.posInf ∧ remaining.le0b then
      ([], if throwOnTimeout then some .scriptTimeout else none)
    else ([], none)
  | remaining, st :: rest =>
    if timeout ≠ JSNum.posInf ∧ remaining.le0b then
      ([], if throwOnTimeout then some .scriptTimeout else none)
    else
      match functionTimeout (stepComp st) (effectiveDeadline timeout matchTimeout remaining) with
      | .error e =>
          ([], if isTimeoutError e && !throwOnTimeout then none else some e)
      | .ok none => ([], none)
      | .ok (some value) =>
          let res := matchesGo throwOnTimeout timeout matchTimeout
            (jsSubInt remaining (ratCeil st.1)) rest
          (resultToMatch value :: res.1, res.2)

/-- JavaScript `matchAll` position advancement: after a match, continue from
the end of the match, or one position further on an empty match. -/
def nextPos (m : RawMatch) : ℕ :=
  if m.matched.length = 0 then m.index + 1 else m.index + m.matched.length

/-- The traced step sequence produced by iterating
`string.matchAll(regex)`: repeated engine execution with `matchAll`
advancement, each step carrying its observed cost (`costs i` for the i-th
`next()` call). Fuelled by `input.length + 1`, which bounds the number of
strictly advancing attempts; fuel exhaustion ends the trace. -/
def engineStepsGo (E : RegexEngine) (source flags input : String) (costs : ℕ → ℚ) :
    ℕ → ℕ → ℕ → List (ℚ × StepRes)
  | 0, _, _ => []
  | fuel + 1, pos, i =>
    if input.length < pos then [(costs i, .done)]
    else
      match E.execAt source flags input pos with
      | .error e => [(costs i, .err e)]
      | .ok none => [(costs i, .done)]
      | .ok (some m) =>
          (costs i, .yieldR m) :: engineStepsGo E source flags input costs fuel (nextPos m) (i + 1)

/-- The full `matchAll` trace of a pattern against `input`, starting at
position `0`. -/
def engineSteps (E : RegexEngine) (source flags input : String) (costs : ℕ → ℚ) :
    List (ℚ × StepRes) :=
  engineStepsGo E source flags input costs (input.length + 1) 0 0

/-- The raw matches produced by a full, unbounded `matchAll` enumeration,
together with the error that ended it, if any (matches found before the
error are retained). -/
def engineRawsGo (E : RegexEngine) (source flags input : String) :
    ℕ → ℕ → List RawMatch × Option JSError
  | 0, _ => ([], none)
  | fuel + 1, pos =>
    if input.length < pos then ([], none)
    else
      match E.execAt source flags input pos with
      | .error e => ([], some e)
      | .ok none => ([], none)
      | .ok (some m) =>
          let r := engineRawsGo E source flags input fuel (nextPos m)
          (m :: r.1, r.2)

/-- All raw matches of a pattern against `input` from position `0`. -/
def engineRaws (E : RegexEngine) (source flags input : String) :
    List RawMatch × Option JSError :=
  engineRawsGo E source flags input (input.length + 1) 0

/-- The value returned by `matches` (source lines 123–170): an object whose
`Symbol.iterator` generator method holds the captured call parameters.
Calling the method runs the generator body — `string.matchAll` on a fresh
`structuredClone(regex)` with `remainingTimeout` freshly initialised to
`timeout` — so `iterate` below models one full consumption, and every
consumption re-runs the body on the same captured parameters. -/
structure SyncMatchesIterable where
  engine : RegexEngine
  regex : RegexObj
  string : String
  costs : ℕ → ℚ
  throwOnTimeout : Bool
  timeout : JSNum
  matchTimeout : JSNum

/-- One consumption of the iterable returned by `matches`: clone the
captured regex, trace its `matchAll` iteration, and drive the budget loop
with `remainingTimeout` initialised to the captured total `timeout`. -/
def SyncMatchesIterable.iterate (it : SyncMatchesIterable) :
    List Match × Option JSError :=
  let clone := structuredCloneRegex it.regex
  matchesGo it.throwOnTimeout it.timeout it.matchTimeout it.timeout
    (engineSteps it.engine clone.source clone.flags it.string it.costs)

/-- The call `matches(regex, string, {timeout, matchTimeout,
throwOnTimeout})` (source lines 114–123): `timeout` and `matchTimeout`
default to `+Infinity`; a pattern without the global flag fails immediately
with the configuration error; otherwise the lazily iterable object is
returned. The caller's regex object is returned untouched. -/
def matchesCallE (E : RegexEngine) (regex : RegexObj) (string : String)
    (costs : ℕ → ℚ) (timeoutOpt matchTimeoutOpt : Option JSNum)
    (throwOnTimeout : Bool) :
    Except JSError SyncMatchesIterable × RegexObj :=
  if !regex.global then
    (.error (.configError
        ("The regex must have the global flag, otherwise, use `firstMatch()` instead")),
      regex)
  else
    (.ok
        { engine := E, regex := regex, string := string, costs := costs
          throwOnTimeout := throwOnTimeout
          timeout := timeoutOpt.getD JSNum.posInf
          matchTimeout := matchTimeoutOpt.getD JSNum.posInf },
      regex)

/-- What `handleAsyncTimeout` (source lines 217–241) does to the per-call
cancellation token: arm no timer, abort the controller immediately, or arm
a timer that fires after `d` milliseconds. -/
inductive AsyncTimerAction where
  | noTimer
  | abortNow
  | armTimer (d : ℚ)
deriving DecidableEq

/-- Translation of `handleAsyncTimeout` (source lines 217–241): an absent or
`NaN` timeout returns early (no timer, no cleanup); a timeout that is
`<= 0` or non-finite arms no timer, additionally aborting immediately when
it is `<= 0` (so `-Infinity` aborts); a positive finite timeout arms a
timer that aborts the controller on expiry. -/
def handleAsyncTimeout (timeout : Option JSNum) : AsyncTimerAction :=
  match timeout with
  | none => .noTimer
  | some t =>
    if t.isNaNb then .noTimer
    else if t.le0b || !t.isFiniteb then
      (if t.le0b then .abortNow else .noTimer)
    else
      match t with
      | .finite d => .armTimer d
      | _ => .noTimer

/-- Translation of `handleAsyncError` (source lines 243–255): an
`AbortError` becomes the default value, or a `TimeoutError` under
`throwOnTimeout`; every other error re-throws unchanged. -/
def handleAsyncError {α : Type} (error : JSError) (throwOnTimeout : Bool)
    (defaultValue : α) : Except JSError α :=
  if error = .abortError then
    if throwOnTimeout then .error .timeoutError else .ok defaultValue
  else .error error

/-- Modelled from the spec: whether the isolated computation settles before
the cancellation token is cancelled (spec §4.6) — always with no timer,
never after an immediate abort, and only strictly before expiry of an armed
timer. -/
def asyncSettles (action : AsyncTimerAction) (cost : ℚ) : Bool :=
  match action with
  | .noTimer => true
  | .abortNow => false
  | .armTimer d => decide (cost < d)

/-- Translation of `withAsyncTimeout` (source lines 258–270): create the
controller, install the deadline handling, await the worker, invoke the
cleanup on both the success and the failure path, and route failures
through `handleAsyncError`. The boolean records whether a previously armed
timer was disarmed by the cleanup (the cleanup runs on every settle path,
so an armed timer is always disarmed). An abort observed by the worker
surfaces as an `AbortError`. -/
def withAsyncTimeout {α : Type} (c : Comp α) (timeout : Option JSNum)
    (throwOnTimeout : Bool) (defaultValue : α) : Except JSError α × Bool :=
  let action := handleAsyncTimeout timeout
  let disarmed := match action with | .armTimer _ => true | _ => false
  if asyncSettles action c.cost then
    match c.result with
    | .ok v => (.ok v, disarmed)
    | .error e => (handleAsyncError e throwOnTimeout defaultValue, disarmed)
  else
    (handleAsyncError .abortError throwOnTimeout defaultValue, disarmed)

/-- `isMatchAsync(regex, string, {timeout, throwOnTimeout})` (source lines
272–279): the worker reconstructs the regex from `regex.source` and
`regex.flags` (no live reference crosses the boundary) and runs `test`,
i.e. a position-0 execution; the default value on timeout is `false`. -/
def isMatchAsyncE (E : RegexEngine) (cost : ℚ) (regex : RegexObj)
    (string : String) (timeout : Option JSNum) (throwOnTimeout : Bool) :
    Except JSError Bool × Bool :=
  withAsyncTimeout
    ⟨cost, (E.execAt regex.source regex.flags string 0).map Option.isSome⟩
    timeout throwOnTimeout false

/-- `firstMatchAsync(regex, string, {timeout, throwOnTimeout})` (source
lines 281–288): the worker runs `exec` once from position 0 and shapes a
raw result with the duplicated match-record literal (`firstMatchWorker`,
source lines 183–199); the default value on timeout is `undefined`. -/
def firstMatchAsyncE (E : RegexEngine) (cost : ℚ) (regex : RegexObj)
    (string : String) (timeout : Option JSNum) (throwOnTimeout : Bool) :
    Except JSError (Option Match) × Bool :=
  withAsyncTimeout
    ⟨cost, (E.execAt regex.source regex.flags string 0).map
        (fun r => r.map firstMatchWorkerMatch)⟩
    timeout throwOnTimeout none

/-- Modelled from the spec: delivery of the streamed worker matches under an
armed timer that fires at absolute time `d` (spec §4.6) — the consumer
receives the `i`-th yielded match only when it settles before the timer
(`times i < d`); delivery stops at the first match the timer beats, and the
boolean records whether every match was delivered. Elements already
produced before cancellation remain valid. -/
def deliverAll (times : ℕ → ℚ) (d : ℚ) : ℕ → List RawMatch → List Match × Bool
  | _, [] => ([], true)
  | i, m :: l =>
    if times i < d then
      let r := deliverAll times d (i + 1) l
      (matchesWorkerMatch m :: r.1, r.2)
    else ([], false)

/-- The terminal outcome of the `matchesAsync` generator's catch clause on a
cancellation: `return handleAsyncError(error, throwOnTimeout, undefined)`
either ends the stream silently or rejects with a `TimeoutError`. -/
def asyncGenAbortOutcome (throwOnTimeout : Bool) : Option JSError :=
  if throwOnTimeout then some .timeoutError else none

/-- Translation of the body of `matchesAsync` (source lines 290–307), which
runs only once the returned async generator is first advanced: the
global-flag check throws the configuration error; the deadline handling
arms the per-call token; the worker's stream (`matchesWorker`, source lines
201–215: a fresh regex from source and flags, `matchAll`, the duplicated
match-record literal) is forwarded element by element. An immediate abort
yields nothing; with a timer firing at `d`, matches settling before `d`
(the `i`-th at time `times i`) are delivered and the stream then ends per
`throwOnTimeout` unless the worker finished (at `doneTime`) first; a worker
error that wins the race re-throws through `handleAsyncError`. -/
def matchesAsyncBody (E : RegexEngine) (regex : RegexObj) (string : String)
    (timeout : Option JSNum) (throwOnTimeout : Bool) (times : ℕ → ℚ)
    (doneTime : ℚ) : List Match × Option JSError :=
  if !regex.global then
    ([], some (.configError
        ("The regex must have the global flag, otherwise, use `firstMatchAsync()` instead")))
  else
    let raws := engineRaws E regex.source regex.flags string
    match handleAsyncTimeout timeout with
    | .abortNow => ([], asyncGenAbortOutcome throwOnTimeout)
    | .noTimer => (raws.1.map matchesWorkerMatch, raws.2)
    | .armTimer d =>
        let delivered := deliverAll times d 0 raws.1
        if delivered.2 && decide (doneTime < d) then (delivered.1, raws.2)
        else (delivered.1, asyncGenAbortOutcome throwOnTimeout)

/-- The value returned by calling the async generator function
`matchesAsync` (source line 290): per JavaScript semantics the body does
not start executing at call time — the call only packages it; everything
observable (including the global-flag check) happens on first advance and
is recorded in `advanceResult`. -/
structure AsyncGenHandle where
  advanceResult : List Match × Option JSError

/-- Calling `matchesAsync(regex, string, {timeout, throwOnTimeout})`: the
call itself never throws and performs no work; it returns the handle whose
advancement runs the deferred body. -/
def matchesAsyncCall (E : RegexEngine) (regex : RegexObj) (string : String)
    (timeout : Option JSNum) (throwOnTimeout : Bool) (times : ℕ → ℚ)
    (doneTime : ℚ) : AsyncGenHandle :=
  ⟨matchesAsyncBody E regex string timeout throwOnTimeout times doneTime⟩

/-- Hypothesis of the "completes well inside the deadline" claims for a
single synchronous bounded execution: the computation settles by the
normalized deadline (trivially so when the deadline is unbounded). -/
def syncCompletes (cost : ℚ) (timeout : Option JSNum) : Bool :=
  match normalizeTimeout timeout with
  | none => true
  | some d => !decide ((d : ℚ) < cost)

/-- Hypothesis of the "completes well inside the deadline" claims for the
budget-driven `matches` loop: the run never trips the pre-attempt
exhaustion check and every attempt settles by its effective per-attempt
deadline. -/
def syncFree (timeout matchTimeout : JSNum) : JSNum → List (ℚ × StepRes) → Bool
  | remaining, [] => !(timeout ≠ JSNum.posInf ∧ remaining.le0b : Bool)
  | remaining, st :: rest =>
    if timeout ≠ JSNum.posInf ∧ remaining.le0b then false
    else
      (match effectiveDeadline timeout matchTimeout remaining with
       | some d => !decide ((d : ℚ) < st.1)
       | none => true)
      && (match st.2 with
          | .yieldR _ => syncFree timeout matchTimeout (jsSubInt remaining (ratCeil st.1)) rest
          | _ => true)

/-- Hypothesis of the "completes well inside the deadline" claims for the
isolated streamed shape: the token is never cancelled before the worker
finished streaming every match. -/
def asyncMatchesFree (timeout : Option JSNum) (raws : List RawMatch)
    (times : ℕ → ℚ) (doneTime : ℚ) : Bool :=
  match handleAsyncTimeout timeout with
  | .noTimer => true
  | .abortNow => false
  | .armTimer d => (deliverAll times d 0 raws).2 && decide (doneTime < d)

/-- JavaScript `\d`: the ASCII digits. -/
def jsDigit (c : Char) : Bool :=
  48 ≤ c.toNat && c.toNat ≤ 57

/-- Modelled from the spec: one position of the engine for the example
pattern `(?<year>\d{4})-(?<month>\d{2})` — four digits, a dash, two digits,
read off the current position. -/
def ymAt : List Char → Option (String × String)
  | a :: b :: c :: d :: dash :: e :: f :: _ =>
    if jsDigit a && jsDigit b && jsDigit c && jsDigit d
        && (dash == ('-')) && jsDigit e && jsDigit f then
      some (String.mk [a, b, c, d], String.mk [e, f])
    else none
  | _ => none

/-- Modelled from the spec: leftmost search of the example pattern from a
position, producing the raw engine result — `result[0]` is the whole match,
`result.slice(1)` the two participating captures, `result.groups` the two
declared named groups. -/
def ymSearchGo (input : String) : List Char → ℕ → Option RawMatch
  | [], _ => none
  | c :: rest, i =>
    match ymAt (c :: rest) with
    | some (y, m) =>
        some
          { matched := y ++ "-" ++ m
            index := i
            captures := [some y, some m]
            groups := some [("year", some y), ("month", some m)]
            input := input }
    | none => ymSearchGo input rest (i + 1)

/-- Modelled from the spec: engine instance for the example pattern
`(?<year>\d{4})-(?<month>\d{2})` of §8, used to evaluate the specified
concrete examples. -/
def ymEngine : RegexEngine :=
  ⟨fun _ _ input pos => .ok (ymSearchGo input (input.toList.drop pos) pos)⟩

/-- The example pattern, without flags. -/
def ymRegex : RegexObj :=
  { source := "(?<year>\\d{4})-(?<month>\\d{2})", flags := "", lastIndex := 0 }

/-- The example pattern with the global flag. -/
def ymRegexG : RegexObj :=
  { source := "(?<year>\\d{4})-(?<month>\\d{2})", flags := "g", lastIndex := 0 }

/-- The `Match` the spec's example expects from
`firstMatch(/(?<year>\d{4})-(?<month>\d{2})/, "2024-01-15")`. -/
def ymExpected : Match :=
  { «match» := "2024-01"
    index := 0
    groups := [some "2024", some "01"]
    namedGroups := [("year", some "2024"), ("month", some "01")]
    input := "2024-01-15" }

/-- The raw engine result the example engine produces on `"2024-01-15"`. -/
def ymRaw : RawMatch :=
  { matched := "2024-01"
    index := 0
    captures := [some "2024", some "01"]
    groups := some [("year", some "2024"), ("month", some "01")]
    input := "2024-01-15" }

/-- Two successive `for..of` passes over the object returned by `matches`:
each pass invokes the object's `Symbol.iterator` generator method afresh,
so each pass runs the full generator body. -/
def SyncMatchesIterable.consumeTwice (it : SyncMatchesIterable) :
    (List Match × Option JSError) × (List Match × Option JSError) :=
  (it.iterate, it.iterate)

theorem functionTimeout_completes {α : Type} (c : Comp α) (nt : Option ℕ)
    (h : ∀ d : ℕ, nt = some d → ¬((d : ℚ) < c.cost)) :
    functionTimeout c nt = c.result := by
  cases nt with
  | none => rfl
  | some d => exact if_neg (h d rfl)

theorem firstMatchWorkerMatch_eq (r : RawMatch) :
    firstMatchWorkerMatch r = resultToMatch r := rfl

theorem matchesWorkerMatch_eq (r : RawMatch) :
    matchesWorkerMatch r = resultToMatch r := rfl

theorem firstMatchWorkerMatch_fun_eq : firstMatchWorkerMatch = resultToMatch := rfl

theorem matchesWorkerMatch_fun_eq : matchesWorkerMatch = resultToMatch := rfl

/-- Claim C9: for every successful match whose pattern declares no named
capture groups (so the raw engine result's `groups` is `undefined`), the
`namedGroups` field of the produced `Match` is the empty mapping — never
absent — under all three match-record constructors (`resultToMatch`, used
by `firstMatch` and `matches`, and the duplicated literals of
`firstMatchWorker` and `matchesWorker` used by the isolated shapes). -/
theorem c9_namedGroups_empty_mapping (raw : RawMatch) (h : raw.groups = none) :
    (resultToMatch raw).namedGroups = []
      ∧ (firstMatchWorkerMatch raw).namedGroups = []
      ∧ (matchesWorkerMatch raw).namedGroups = [] := by
  refine ⟨?_, ?_, ?_⟩ <;>
    simp [resultToMatch, firstMatchWorkerMatch, matchesWorkerMatch, h]

theorem c9_witness :
    (RawMatch.mk ("ab") 0 [none] none ("xaby")).groups = none
      ∧ ((resultToMatch (RawMatch.mk ("ab") 0 [none] none ("xaby"))).namedGroups = []
          ∧ (firstMatchWorkerMatch (RawMatch.mk ("ab") 0 [none] none ("xaby"))).namedGroups = []
          ∧ (matchesWorkerMatch (RawMatch.mk ("ab") 0 [none] none ("xaby"))).namedGroups = []) :=
  ⟨rfl, c9_namedGroups_empty_mapping (RawMatch.mk ("ab") 0 [none] none ("xaby")) rfl⟩

/-- Claim C6: the normalized `Match` preserves the engine's captured-groups
sequence (so its length is the pattern's declared group count whenever the
engine result has that length, regardless of which groups participated) and
its named-groups object verbatim (so it contains exactly the pattern's
declared named groups); and the spec's concrete example holds:
`firstMatch(/(?<year>\d{4})-(?<month>\d{2})/, "2024-01-15")` produces the
match `"2024-01"` at offset 0 with captures `["2024","01"]`, named groups
`{year:"2024", month:"01"}` and input `"2024-01-15"`. -/
theorem c6_match_shape_and_example :
    (∀ (raw : RawMatch) (groupCount : ℕ), raw.captures.length = groupCount →
        (resultToMatch raw).groups.length = groupCount)
      ∧ (∀ (raw : RawMatch) (l : List (String × Option String)), raw.groups = some l →
          (resultToMatch raw).namedGroups = l)
      ∧ (firstMatchE ymEngine 0 ymRegex ("2024-01-15") none false).1 = .ok (some ymExpected) := by
  refine ⟨?_, ?_, rfl⟩
  · intro raw groupCount h
    simpa [resultToMatch] using h
  · intro raw l h
    simp [resultToMatch, h]

theorem c6_witness :
    ((RawMatch.mk ("2024-01") 0 [some ("2024"), some ("01")]
          (some [(("year"), some ("2024")), (("month"), some ("01"))]) ("2024-01-15")).captures.length = 2
        ∧ (resultToMatch (RawMatch.mk ("2024-01") 0 [some ("2024"), some ("01")]
            (some [(("year"), some ("2024")), (("month"), some ("01"))]) ("2024-01-15"))).groups.length = 2)
      ∧ (resultToMatch (RawMatch.mk ("2024-01") 0 [some ("2024"), some ("01")]
          (some [(("year"), some ("2024")), (("month"), some ("01"))]) ("2024-01-15"))).namedGroups
          = [(("year"), some ("2024")), (("month"), some ("01"))] :=
  ⟨⟨rfl, c6_match_shape_and_example.1 _ 2 rfl⟩,
    c6_match_shape_and_example.2.1 _ _ rfl⟩

/-- Claim C4: invoking `matches` on a pattern lacking the global flag fails
with the configuration error, and so does `matchesAsync` (upon its body
running); this happens for every string, every timeout configuration, and
both values of `throwOnTimeout` — the error is never suppressed nor
converted to a default value — and zero `Match` elements are produced. -/
theorem c4_nonGlobal_configuration_error (E : RegexEngine) (r : RegexObj)
    (s : String) (costs : ℕ → ℚ) (timeoutOpt matchTimeoutOpt : Option JSNum)
    (throwOnTimeout : Bool) (times : ℕ → ℚ) (doneTime : ℚ)
    (h : r.global = false) :
    (matchesCallE E r s costs timeoutOpt matchTimeoutOpt throwOnTimeout).1
        = .error (.configError
            ("The regex must have the global flag, otherwise, use `firstMatch()` instead"))
      ∧ matchesAsyncBody E r s timeoutOpt throwOnTimeout times doneTime
        = ([], some (.configError
            ("The regex must have the global flag, otherwise, use `firstMatchAsync()` instead"))) := by
  constructor
  · simp [matchesCallE, h]
  · simp [matchesAsyncBody, h]

theorem c4_witness :
    ymRegex.global = false
      ∧ ((matchesCallE ymEngine ymRegex ("2024-01-15") (fun _ => 0) none none true).1
          = .error (.configError
              ("The regex must have the global flag, otherwise, use `firstMatch()` instead"))
        ∧ matchesAsyncBody ymEngine ymRegex ("2024-01-15") none true (fun _ => 0) 0
          = ([], some (.configError
              ("The regex must have the global flag, otherwise, use `firstMatchAsync()` instead")))) :=
  ⟨rfl, c4_nonGlobal_configuration_error ymEngine ymRegex ("2024-01-15") (fun _ => 0)
      none none true (fun _ => 0) 0 rfl⟩

/-- Claim C10: calling `matchesAsync` raises no error at call time even on a
pattern lacking the global flag — per async-generator semantics the call
only packages the deferred body into a handle, and the global-flag check,
timer arming and worker dispatch happen on first advance, where the
configuration error then surfaces — whereas the synchronous `matches`
throws the configuration error at call time. -/
theorem c10_async_call_defers_global_check (E : RegexEngine) (r : RegexObj)
    (s : String) (costs : ℕ → ℚ) (timeoutOpt matchTimeoutOpt : Option JSNum)
    (throwOnTimeout : Bool) (times : ℕ → ℚ) (doneTime : ℚ)
    (h : r.global = false) :
    matchesAsyncCall E r s timeoutOpt throwOnTimeout times doneTime
        = AsyncGenHandle.mk
            (matchesAsyncBody E r s timeoutOpt throwOnTimeout times doneTime)
      ∧ (matchesAsyncCall E r s timeoutOpt throwOnTimeout times doneTime).advanceResult
        = ([], some (.configError
            ("The regex must have the global flag, otherwise, use `firstMatchAsync()` instead")))
      ∧ (matchesCallE E r s costs timeoutOpt matchTimeoutOpt throwOnTimeout).1
        = .error (.configError
            ("The regex must have the global flag, otherwise, use `firstMatch()` instead")) := by
  refine ⟨rfl, ?_, ?_⟩
  · simp [matchesAsyncCall, matchesAsyncBody, h]
  · simp [matchesCallE, h]

theorem c10_witness :
    ymRegex.global = false
      ∧ (matchesAsyncCall ymEngine ymRegex ("2024-01-15") (some (JSNum.finite 5)) false
            (fun _ => 0) 0
          = AsyncGenHandle.mk
              (matchesAsyncBody ymEngine ymRegex ("2024-01-15") (some (JSNum.finite 5)) false
                (fun _ => 0) 0)
        ∧ (matchesAsyncCall ymEngine ymRegex ("2024-01-15") (some (JSNum.finite 5)) false
              (fun _ => 0) 0).advanceResult
          = ([], some (.configError
              ("The regex must have the global flag, otherwise, use `firstMatchAsync()` instead")))
        ∧ (matchesCallE ymEngine ymRegex ("2024-01-15") (fun _ => 0)
              (some (JSNum.finite 5)) none false).1
          = .error (.configError
              ("The regex must have the global flag, otherwise, use `firstMatch()` instead"))) :=
  ⟨rfl, c10_async_call_defers_global_check ymEngine ymRegex ("2024-01-15") (fun _ => 0)
      (some (JSNum.finite 5)) none false (fun _ => 0) 0 rfl⟩

/-- Claim C7: no public operation mutates the caller's pattern object or
its matching-position state — each synchronous operation hands the engine
only a `structuredClone` duplicate and returns the caller's object
untouched, and each isolated operation only reads the pattern's source text
and flags — so every operation's observable result is moreover independent
of the caller's current `lastIndex`, and repeated calls with the same
pattern instance always see it unchanged. -/
theorem c7_pattern_never_mutated (E : RegexEngine) (cost : ℚ) (r : RegexObj)
    (s : String) (timeout : Option JSNum) (throwOnTimeout : Bool)
    (costs : ℕ → ℚ) (matchTimeoutOpt : Option JSNum) (li : ℕ)
    (times : ℕ → ℚ) (doneTime : ℚ) :
    (isMatchE E cost r s timeout throwOnTimeout).2 = r
      ∧ (firstMatchE E cost r s timeout throwOnTimeout).2 = r
      ∧ (matchesCallE E r s costs timeout matchTimeoutOpt throwOnTimeout).2 = r
      ∧ (isMatchE E cost { r with lastIndex := li } s timeout throwOnTimeout).1
        = (isMatchE E cost r s timeout throwOnTimeout).1
      ∧ (firstMatchE E cost { r with lastIndex := li } s timeout throwOnTimeout).1
        = (firstMatchE E cost r s timeout throwOnTimeout).1
      ∧ Except.map SyncMatchesIterable.iterate
          (matchesCallE E { r with lastIndex := li } s costs timeout matchTimeoutOpt
            throwOnTimeout).1
        = Except.map SyncMatchesIterable.iterate
          (matchesCallE E r s costs timeout matchTimeoutOpt throwOnTimeout).1
      ∧ isMatchAsyncE E cost { r with lastIndex := li } s timeout throwOnTimeout
        = isMatchAsyncE E cost r s timeout throwOnTimeout
      ∧ firstMatchAsyncE E cost { r with lastIndex := li } s timeout throwOnTimeout
        = firstMatchAsyncE E cost r s timeout throwOnTimeout
      ∧ matchesAsyncBody E { r with lastIndex := li } s timeout throwOnTimeout times doneTime
        = matchesAsyncBody E r s timeout throwOnTimeout times doneTime := by
  refine ⟨?_, ?_, ?_, rfl, rfl, ?_, rfl, rfl, rfl⟩
  · simp [isMatchE]
  · simp [firstMatchE]
  · simp only [matchesCallE]
    split <;> rfl
  · simp only [matchesCallE, RegexObj.global]
    split <;> rfl

/-- Claim C2, counterexample: at the concrete raw timeout `-Infinity` the
claim fails on both regimes. `-Infinity` is neither absent, `NaN`, nor
positive infinity, so the claim asserts the synchronous normalizer maps it
to a bounded deadline — but `normalizeTimeout` yields `Unbounded`; and
`-Infinity` is a non-finite timeout, for which the claim asserts the
isolated regime arms no timer and never cancels — but `handleAsyncTimeout`
cancels the token immediately. -/
theorem c2_counterexample :
    normalizeTimeout (some JSNum.negInf) = none
      ∧ handleAsyncTimeout (some JSNum.negInf) = AsyncTimerAction.abortNow :=
  ⟨rfl, rfl⟩

/-- Claim C2, amended: in the synchronous regime, `normalize` maps an
absent, `NaN`, or infinite (positive or negative) raw timeout to
`Unbounded`, and maps every finite number `x` to the bounded deadline
`max(1, trunc(abs(x)))` — so zero and negative finite values are clamped up
to a minimum of 1 millisecond rather than special-cased to "always time
out"; in the isolated regime, a timeout ≤ 0 (including `-Infinity`) cancels
the token immediately before the computation is dispatched, so the call
always reports a timeout outcome regardless of the computation; an
absent/`NaN`/`+Infinity` timeout arms no timer and never cancels; and a
positive finite timeout arms a timer that is disarmed when the computation
settles. -/
theorem c2_timeout_normalization_policies :
    (normalizeTimeout none = none
        ∧ normalizeTimeout (some JSNum.nan) = none
        ∧ normalizeTimeout (some JSNum.posInf) = none
        ∧ normalizeTimeout (some JSNum.negInf) = none)
      ∧ (∀ q : ℚ, normalizeTimeout (some (JSNum.finite q))
            = some (max 1 (ratTrunc |q|).toNat))
      ∧ (∀ q : ℚ, ∀ d : ℕ, normalizeTimeout (some (JSNum.finite q)) = some d → 1 ≤ d)
      ∧ (handleAsyncTimeout none = AsyncTimerAction.noTimer
        ∧ handleAsyncTimeout (some JSNum.nan) = AsyncTimerAction.noTimer
        ∧ handleAsyncTimeout (some JSNum.posInf) = AsyncTimerAction.noTimer)
      ∧ (∀ q : ℚ, q ≤ 0 → handleAsyncTimeout (some (JSNum.finite q)) = AsyncTimerAction.abortNow)
      ∧ handleAsyncTimeout (some JSNum.negInf) = AsyncTimerAction.abortNow
      ∧ (∀ q : ℚ, 0 < q → handleAsyncTimeout (some (JSNum.finite q)) = AsyncTimerAction.armTimer q)
      ∧ (∀ (α : Type) (c : Comp α) (timeout : Option JSNum) (tOT : Bool) (dv : α),
          handleAsyncTimeout timeout = AsyncTimerAction.abortNow →
          (withAsyncTimeout c timeout tOT dv).1
            = if tOT then .error .timeoutError else .ok dv)
      ∧ (∀ (α : Type) (c : Comp α) (timeout : Option JSNum) (tOT : Bool) (dv : α) (v : α),
          handleAsyncTimeout timeout = AsyncTimerAction.noTimer → c.result = .ok v →
          (withAsyncTimeout c timeout tOT dv).1 = .ok v)
      ∧ (∀ (α : Type) (c : Comp α) (timeout : Option JSNum) (tOT : Bool) (dv : α) (d : ℚ),
          handleAsyncTimeout timeout = AsyncTimerAction.armTimer d →
          (withAsyncTimeout c timeout tOT dv).2 = true) := by
  refine ⟨⟨rfl, rfl, rfl, rfl⟩, ?_, ?_, ⟨rfl, rfl, rfl⟩, ?_, rfl, ?_, ?_, ?_, ?_⟩
  · intro q
    rfl
  · intro q d h
    simp only [normalizeTimeout, Option.some_inj] at h
    omega
  · intro q h
    simp [handleAsyncTimeout, JSNum.isNaNb, JSNum.le0b, h]
  · intro q h
    simp [handleAsyncTimeout, JSNum.isNaNb, JSNum.le0b, JSNum.isFiniteb, not_le.mpr h]
  · intro α c timeout tOT dv h
    simp [withAsyncTimeout, h, asyncSettles, handleAsyncError]
  · intro α c timeout tOT dv v h hres
    simp [withAsyncTimeout, h, asyncSettles, hres]
  · intro α c timeout tOT dv d h
    simp only [withAsyncTimeout, h, asyncSettles]
    split
    · cases c.result <;> rfl
    · rfl

theorem c2_witness :
    normalizeTimeout (some (JSNum.finite (-5)))
        = some (max 1 (ratTrunc |(-5 : ℚ)|).toNat)
      ∧ handleAsyncTimeout (some (JSNum.finite 0)) = AsyncTimerAction.abortNow
      ∧ handleAsyncTimeout (some (JSNum.finite 250)) = AsyncTimerAction.armTimer 250
      ∧ (withAsyncTimeout (Comp.mk 3 (.ok true)) (some (JSNum.finite 0)) false false).1
        = .ok false
      ∧ (withAsyncTimeout (Comp.mk 3 (.ok true)) none false false).1 = .ok true :=
  ⟨c2_timeout_normalization_policies.2.1 (-5),
    c2_timeout_normalization_policies.2.2.2.2.1 0 (by decide),
    c2_timeout_normalization_policies.2.2.2.2.2.2.1 250 (by decide),
    c2_timeout_normalization_policies.2.2.2.2.2.2.2.1 Bool
      (Comp.mk 3 (.ok true)) (some (JSNum.finite 0)) false false
      (c2_timeout_normalization_policies.2.2.2.2.1 0 (by decide)),
    c2_timeout_normalization_policies.2.2.2.2.2.2.2.2.1 Bool
      (Comp.mk 3 (.ok true)) none false false true rfl rfl⟩

/-- Claim C1: for every computation, timeout configuration and options,
when a synchronous operation times out — the bounded executor's deadline is
exceeded — `isMatch` returns `false` and `firstMatch` returns `undefined`
unless `throwOnTimeout` is set, in which case the typed timeout error
(recognised by `isTimeoutError`, hence distinguishable from "no match
found") propagates; in the `matches` loop a timed-out attempt produces no
further elements (ending silently, or with the timeout error under
`throwOnTimeout`); and every non-timeout error raised by a computation that
did not exceed its deadline propagates to the caller unchanged in all three
operations — never converted into a timeout outcome or a default value. -/
theorem c1_sync_timeout_and_error_semantics :
    (∀ (c : Comp Bool) (timeout : Option JSNum) (d : ℕ),
        normalizeTimeout timeout = some d → (d : ℚ) < c.cost →
        isMatchCore c timeout false = .ok false
          ∧ isMatchCore c timeout true = .error .scriptTimeout
          ∧ isTimeoutError .scriptTimeout = true)
      ∧ (∀ (c : Comp (Option RawMatch)) (timeout : Option JSNum) (d : ℕ),
          normalizeTimeout timeout = some d → (d : ℚ) < c.cost →
          firstMatchCore c timeout false = .ok none
            ∧ firstMatchCore c timeout true = .error .scriptTimeout)
      ∧ (∀ (tOT : Bool) (t mt remaining : JSNum) (st : ℚ × StepRes)
            (rest : List (ℚ × StepRes)) (d : ℕ),
          effectiveDeadline t mt remaining = some d → (d : ℚ) < st.1 →
          matchesGo tOT t mt remaining (st :: rest)
            = ([], if tOT then some .scriptTimeout else none))
      ∧ (∀ (c : Comp Bool) (timeout : Option JSNum) (tOT : Bool) (e : JSError),
          c.result = .error e → isTimeoutError e = false →
          syncCompletes c.cost timeout = true →
          isMatchCore c timeout tOT = .error e)
      ∧ (∀ (c : Comp (Option RawMatch)) (timeout : Option JSNum) (tOT : Bool) (e : JSError),
          c.result = .error e → isTimeoutError e = false →
          syncCompletes c.cost timeout = true →
          firstMatchCore c timeout tOT = .error e)
      ∧ (∀ (tOT : Bool) (t mt remaining : JSNum) (cost : ℚ) (e : JSError)
            (rest : List (ℚ × StepRes)),
          ¬(t ≠ JSNum.posInf ∧ remaining.le0b) → isTimeoutError e = false →
          (∀ d : ℕ, effectiveDeadline t mt remaining = some d → ¬((d : ℚ) < cost)) →
          matchesGo tOT t mt remaining ((cost, .err e) :: rest) = ([], some e)) := by
  refine ⟨?_, ?_, ?_, ?_, ?_, ?_⟩
  · intro c timeout d hnorm hlt
    simp [isMatchCore, functionTimeout, hnorm, hlt, isTimeoutError]
  · intro c timeout d hnorm hlt
    simp [firstMatchCore, functionTimeout, hnorm, hlt, isTimeoutError]
  · intro tOT t mt remaining st rest d hdl hlt
    by_cases hex : t ≠ JSNum.posInf ∧ remaining.le0b
    · cases tOT <;> simp [matchesGo, hex]
    · cases tOT <;>
        simp [matchesGo, hex, hdl, functionTimeout, stepComp, hlt, isTimeoutError]
  · intro c timeout tOT e hres htm hcomp
    unfold syncCompletes at hcomp
    have hfits : ∀ d : ℕ, normalizeTimeout timeout = some d → ¬((d : ℚ) < c.cost) := by
      intro d hd
      rw [hd] at hcomp
      simpa using hcomp
    unfold isMatchCore
    rw [functionTimeout_completes c _ hfits, hres]
    simp [htm]
  · intro c timeout tOT e hres htm hcomp
    unfold syncCompletes at hcomp
    have hfits : ∀ d : ℕ, normalizeTimeout timeout = some d → ¬((d : ℚ) < c.cost) := by
      intro d hd
      rw [hd] at hcomp
      simpa using hcomp
    unfold firstMatchCore
    rw [functionTimeout_completes c _ hfits, hres]
    simp [htm]
  · intro tOT t mt remaining cost e rest hex htm hfits
    unfold matchesGo
    rw [if_neg hex]
    cases hd : effectiveDeadline t mt remaining with
    | none => simp [functionTimeout, stepComp, htm]
    | some d =>
        have := hfits d hd
        simp [functionTimeout, stepComp, htm, this]

theorem c1_witness :
    normalizeTimeout (some (JSNum.finite 10)) = some 10
      ∧ ((10 : ℕ) : ℚ) < (Comp.mk (α := Bool) 100 (.ok true)).cost
      ∧ isMatchCore (Comp.mk 100 (.ok true)) (some (JSNum.finite 10)) false = .ok false
      ∧ isMatchCore (Comp.mk 100 (.ok true)) (some (JSNum.finite 10)) true
        = .error .scriptTimeout
      ∧ firstMatchCore (Comp.mk 3 (.error (.engineError ("bad"))))
          (some (JSNum.finite 10)) true = .error (.engineError ("bad")) :=
  ⟨rfl, by decide,
    ((c1_sync_timeout_and_error_semantics.1 (Comp.mk 100 (.ok true))
        (some (JSNum.finite 10)) 10 rfl (by decide)).1),
    ((c1_sync_timeout_and_error_semantics.1 (Comp.mk 100 (.ok true))
        (some (JSNum.finite 10)) 10 rfl (by decide)).2.1),
    (c1_sync_timeout_and_error_semantics.2.2.2.2.1
      (Comp.mk 3 (.error (.engineError ("bad")))) (some (JSNum.finite 10)) true
      (.engineError ("bad")) rfl rfl (by decide))⟩

/-- Claim C3: in the `matches` enumeration, (1) whenever the configured
total timeout is bounded and the remaining budget is ≤ 0, the sequence
terminates before any attempt — silently, or with the timeout error when
`throwOnTimeout` is set — uniformly in the pending iterator steps, so an
exhausted budget is never re-normalized into a positive or unbounded
per-attempt deadline; (2) `jsMin` indeed selects one of its two arguments
(the claim's "smaller of the two"), the effective deadline is unbounded
exactly when both configured timeouts are `+Infinity`, and otherwise it is
the normalization of `Math.min(remainingTimeout, matchTimeout)`; and (3) a
non-terminated attempt runs under that effective deadline and, when it
yields, the remaining budget is decremented by the attempt's elapsed time
rounded up to the next whole millisecond (`ratCeil`). -/
theorem c3_budget_tracking :
    (∀ (tOT : Bool) (t mt remaining : JSNum) (steps : List (ℚ × StepRes)),
        t ≠ JSNum.posInf → remaining.le0b = true →
        matchesGo tOT t mt remaining steps
          = ([], if tOT then some .scriptTimeout else none))
      ∧ (∀ x y : JSNum, jsMin x y = x ∨ jsMin x y = y)
      ∧ (∀ remaining : JSNum,
          effectiveDeadline JSNum.posInf JSNum.posInf remaining = none)
      ∧ (∀ (t mt remaining : JSNum), t ≠ JSNum.posInf ∨ mt ≠ JSNum.posInf →
          effectiveDeadline t mt remaining
            = normalizeTimeout (some (jsMin remaining mt)))
      ∧ (∀ (tOT : Bool) (t mt remaining : JSNum) (st : ℚ × StepRes)
            (rest : List (ℚ × StepRes)),
          ¬(t ≠ JSNum.posInf ∧ remaining.le0b) →
          matchesGo tOT t mt remaining (st :: rest)
            = match functionTimeout (stepComp st) (effectiveDeadline t mt remaining) with
              | .error e => ([], if isTimeoutError e && !tOT then none else some e)
              | .ok none => ([], none)
              | .ok (some v) =>
                  (resultToMatch v
                      :: (matchesGo tOT t mt (jsSubInt remaining (ratCeil st.1)) rest).1,
                    (matchesGo tOT t mt (jsSubInt remaining (ratCeil st.1)) rest).2)) := by
  refine ⟨?_, ?_, ?_, ?_, ?_⟩
  · intro tOT t mt remaining steps h1 h2
    cases steps <;> simp [matchesGo, h1, h2]
  · intro x y
    cases x <;> cases y <;> simp [jsMin]
    all_goals exact le_total _ _
  · intro remaining
    simp [effectiveDeadline]
  · intro t mt remaining h
    simp [effectiveDeadline, h]
  · intro tOT t mt remaining st rest hex
    rw [matchesGo, if_neg hex]

theorem c3_witness :
    ((JSNum.finite 0 ≠ JSNum.posInf)
        ∧ (JSNum.finite 0).le0b = true
        ∧ matchesGo true (JSNum.finite 0) JSNum.posInf (JSNum.finite 0)
            [(1, StepRes.yieldR (RawMatch.mk ("a") 0 [] none ("a")))]
          = ([], some .scriptTimeout))
      ∧ matchesGo false JSNum.posInf JSNum.posInf JSNum.posInf
          [(2, StepRes.yieldR (RawMatch.mk ("a") 0 [] none ("a")))]
        = match functionTimeout (stepComp (2, StepRes.yieldR (RawMatch.mk ("a") 0 [] none ("a"))))
              (effectiveDeadline JSNum.posInf JSNum.posInf JSNum.posInf) with
          | .error e => ([], if isTimeoutError e && !false then none else some e)
          | .ok none => ([], none)
          | .ok (some v) =>
              (resultToMatch v
                  :: (matchesGo false JSNum.posInf JSNum.posInf
                        (jsSubInt JSNum.posInf (ratCeil 2)) []).1,
                (matchesGo false JSNum.posInf JSNum.posInf
                    (jsSubInt JSNum.posInf (ratCeil 2)) []).2) :=
  ⟨⟨by decide, by decide,
      c3_budget_tracking.1 true (JSNum.finite 0) JSNum.posInf (JSNum.finite 0)
        [(1, StepRes.yieldR (RawMatch.mk ("a") 0 [] none ("a")))] (by decide) (by decide)⟩,
    c3_budget_tracking.2.2.2.2 false JSNum.posInf JSNum.posInf JSNum.posInf
      (2, StepRes.yieldR (RawMatch.mk ("a") 0 [] none ("a"))) [] (by decide)⟩

theorem matchesGo_length (tOT : Bool) (t mt : JSNum) :
    ∀ (steps : List (ℚ × StepRes)) (remaining : JSNum),
      (matchesGo tOT t mt remaining steps).1.length ≤ steps.length := by
  intro steps
  induction steps with
  | nil =>
      intro remaining
      rw [matchesGo]
      split <;> simp
  | cons st rest ih =>
      intro remaining
      rw [matchesGo]
      split
      · simp
      · cases hft : functionTimeout (stepComp st) (effectiveDeadline t mt remaining) with
        | error e => simp
        | ok v =>
            cases v with
            | none => simp
            | some m => simpa using Nat.succ_le_succ (ih _)

theorem engineStepsGo_length (E : RegexEngine) (src fl input : String)
    (costs : ℕ → ℚ) :
    ∀ (fuel pos i : ℕ),
      (engineStepsGo E src fl input costs fuel pos i).length ≤ fuel + 1 := by
  intro fuel
  induction fuel with
  | zero =>
      intro pos i
      simp [engineStepsGo]
  | succ fuel ih =>
      intro pos i
      rw [engineStepsGo]
      split
      · simp
      · cases hE : E.execAt src fl input pos with
        | error e => simp
        | ok v =>
            cases v with
            | none => simp
            | some m =>
                simpa using Nat.succ_le_succ (ih (nextPos m) (i + 1))

/-- Claim C8, counterexample: the sequence returned by `matches` is not
single-pass. With the example global pattern on `"2024-01-15"`, consuming
the returned iterable twice — each `for..of` pass invokes the object's
`Symbol.iterator` generator method afresh — produces the (non-empty) match
list again on the second pass, with the budget freshly reinitialised,
instead of producing no further elements. -/
theorem c8_counterexample :
    Except.map SyncMatchesIterable.consumeTwice
        (matchesCallE ymEngine ymRegexG ("2024-01-15") (fun _ => 0) none none false).1
      = .ok (([ymExpected], none), ([ymExpected], none))
      ∧ ([ymExpected] : List Match) ≠ [] :=
  ⟨rfl, by simp⟩

/-- Claim C8, amended: for every global-flag pattern and input, `matches`
returns a lazy finite sequence of `Match`: the call itself only packages
the call parameters into the iterable (no matching work happens at call
time), each consumption produces at most `input.length + 2` matches (the
`matchAll` trace is fuelled by the input length), and the consumer may stop
early at any point; however the iterable is re-iterable rather than
single-pass — every consumption re-runs the generator body from the
beginning on a fresh clone with the budget reinitialised to the configured
total timeout. -/
theorem c8_matches_sequence_properties :
    (∀ (E : RegexEngine) (r : RegexObj) (s : String) (costs : ℕ → ℚ)
        (timeoutOpt matchTimeoutOpt : Option JSNum) (tOT : Bool),
        r.global = true →
        (matchesCallE E r s costs timeoutOpt matchTimeoutOpt tOT).1
          = .ok (SyncMatchesIterable.mk E r s costs tOT
              (timeoutOpt.getD JSNum.posInf) (matchTimeoutOpt.getD JSNum.posInf)))
      ∧ (∀ it : SyncMatchesIterable, it.iterate.1.length ≤ it.string.length + 2)
      ∧ (∀ it : SyncMatchesIterable,
          it.consumeTwice = (it.iterate, it.iterate)
            ∧ it.iterate
              = matchesGo it.throwOnTimeout it.timeout it.matchTimeout it.timeout
                  (engineSteps it.engine (structuredCloneRegex it.regex).source
                    (structuredCloneRegex it.regex).flags it.string it.costs)) := by
  refine ⟨?_, ?_, ?_⟩
  · intro E r s costs timeoutOpt matchTimeoutOpt tOT h
    simp [matchesCallE, h]
  · intro it
    calc (it.iterate.1).length
        ≤ (engineSteps it.engine (structuredCloneRegex it.regex).source
            (structuredCloneRegex it.regex).flags it.string it.costs).length :=
          matchesGo_length _ _ _ _ _
      _ ≤ it.string.length + 2 :=
          engineStepsGo_length _ _ _ _ _ _ _ _
  · intro it
    exact ⟨rfl, rfl⟩

theorem c8_witness :
    ymRegexG.global = true
      ∧ (matchesCallE ymEngine ymRegexG ("2024-01-15") (fun _ => 0) none none false).1
        = .ok (SyncMatchesIterable.mk ymEngine ymRegexG ("2024-01-15") (fun _ => 0) false
            ((none : Option JSNum).getD JSNum.posInf)
            ((none : Option JSNum).getD JSNum.posInf)) :=
  ⟨rfl, c8_matches_sequence_properties.1 ymEngine ymRegexG ("2024-01-15") (fun _ => 0)
      none none false rfl⟩

theorem deliverAll_complete (times : ℕ → ℚ) (d : ℚ) :
    ∀ (l : List RawMatch) (i : ℕ),
      (deliverAll times d i l).2 = true →
      (deliverAll times d i l).1 = l.map matchesWorkerMatch := by
  intro l
  induction l with
  | nil =>
      intro i _
      rfl
  | cons m rest ih =>
      intro i h
      rw [deliverAll] at h ⊢
      by_cases ht : times i < d
      · rw [if_pos ht] at h ⊢
        simpa using ih (i + 1) (by simpa using h)
      · rw [if_neg ht] at h
        simp at h

theorem engineStepsGo_stop (E : RegexEngine) (src fl input : String)
    (costs : ℕ → ℚ) (fuel pos i : ℕ) (hp : input.length < pos) :
    engineStepsGo E src fl input costs (fuel + 1) pos i = [(costs i, .done)] := by
  rw [engineStepsGo, if_pos hp]

theorem engineStepsGo_err (E : RegexEngine) (src fl input : String)
    (costs : ℕ → ℚ) (fuel pos i : ℕ) (e : JSError) (hp : ¬input.length < pos)
    (hE : E.execAt src fl input pos = .error e) :
    engineStepsGo E src fl input costs (fuel + 1) pos i = [(costs i, .err e)] := by
  rw [engineStepsGo, if_neg hp, hE]

theorem engineStepsGo_none (E : RegexEngine) (src fl input : String)
    (costs : ℕ → ℚ) (fuel pos i : ℕ) (hp : ¬input.length < pos)
    (hE : E.execAt src fl input pos = .ok none) :
    engineStepsGo E src fl input costs (fuel + 1) pos i = [(costs i, .done)] := by
  rw [engineStepsGo, if_neg hp, hE]

theorem engineStepsGo_some (E : RegexEngine) (src fl input : String)
    (costs : ℕ → ℚ) (fuel pos i : ℕ) (m : RawMatch) (hp : ¬input.length < pos)
    (hE : E.execAt src fl input pos = .ok (some m)) :
    engineStepsGo E src fl input costs (fuel + 1) pos i
      = (costs i, .yieldR m) :: engineStepsGo E src fl input costs fuel (nextPos m) (i + 1) := by
  rw [engineStepsGo, if_neg hp, hE]

theorem engineRawsGo_stop (E : RegexEngine) (src fl input : String)
    (fuel pos : ℕ) (hp : input.length < pos) :
    engineRawsGo E src fl input (fuel + 1) pos = ([], none) := by
  rw [engineRawsGo, if_pos hp]

theorem engineRawsGo_err (E : RegexEngine) (src fl input : String)
    (fuel pos : ℕ) (e : JSError) (hp : ¬input.length < pos)
    (hE : E.execAt src fl input pos = .error e) :
    engineRawsGo E src fl input (fuel + 1) pos = ([], some e) := by
  rw [engineRawsGo, if_neg hp, hE]

theorem engineRawsGo_none (E : RegexEngine) (src fl input : String)
    (fuel pos : ℕ) (hp : ¬input.length < pos)
    (hE : E.execAt src fl input pos = .ok none) :
    engineRawsGo E src fl input (fuel + 1) pos = ([], none) := by
  rw [engineRawsGo, if_neg hp, hE]

theorem engineRawsGo_some (E : RegexEngine) (src fl input : String)
    (fuel pos : ℕ) (m : RawMatch) (hp : ¬input.length < pos)
    (hE : E.execAt src fl input pos = .ok (some m)) :
    engineRawsGo E src fl input (fuel + 1) pos
      = (m :: (engineRawsGo E src fl input fuel (nextPos m)).1,
          (engineRawsGo E src fl input fuel (nextPos m)).2) := by
  rw [engineRawsGo, if_neg hp, hE]

theorem matchesGo_done_step (tOT : Bool) (t mt remaining : JSNum) (c : ℚ)
    (h2 : syncFree t mt remaining [(c, .done)] = true) :
    matchesGo tOT t mt remaining [(c, .done)] = ([], none) := by
  rw [syncFree] at h2
  rw [matchesGo]
  by_cases hex : t ≠ JSNum.posInf ∧ remaining.le0b
  · rw [if_pos hex] at h2
    exact absurd h2 (by simp)
  · rw [if_neg hex] at h2 ⊢
    cases hdl : effectiveDeadline t mt remaining with
    | none => simp [functionTimeout, stepComp]
    | some d =>
        rw [hdl] at h2
        simp only [Bool.and_true, Bool.not_eq_true', decide_eq_false_iff_not] at h2
        simp [functionTimeout, stepComp, h2]

theorem matchesGo_of_raws (E : RegexEngine) (src fl input : String)
    (costs : ℕ → ℚ) (tOT : Bool) (t mt : JSNum) :
    ∀ (fuel pos i : ℕ) (remaining : JSNum),
      (engineRawsGo E src fl input fuel pos).2 = none →
      syncFree t mt remaining (engineStepsGo E src fl input costs fuel pos i) = true →
      matchesGo tOT t mt remaining (engineStepsGo E src fl input costs fuel pos i)
        = ((engineRawsGo E src fl input fuel pos).1.map resultToMatch, none) := by
  intro fuel
  induction fuel with
  | zero =>
      intro pos i remaining h1 h2
      rw [engineStepsGo] at h2 ⊢
      rw [engineRawsGo]
      rw [syncFree] at h2
      rw [matchesGo]
      simp only [Bool.not_eq_true'] at h2
      rw [if_neg (by simpa using of_decide_eq_false h2)]
      simp
  | succ fuel ih =>
      intro pos i remaining h1 h2
      by_cases hp : input.length < pos
      · rw [engineStepsGo_stop E src fl input costs fuel pos i hp] at h2 ⊢
        rw [engineRawsGo_stop E src fl input fuel pos hp]
        simpa using matchesGo_done_step tOT t mt remaining (costs i) h2
      · cases hE : E.execAt src fl input pos with
        | error e =>
            rw [engineRawsGo_err E src fl input fuel pos e hp hE] at h1
            simp at h1
        | ok v =>
            cases v with
            | none =>
                rw [engineStepsGo_none E src fl input costs fuel pos i hp hE] at h2 ⊢
                rw [engineRawsGo_none E src fl input fuel pos hp hE]
                simpa using matchesGo_done_step tOT t mt remaining (costs i) h2
            | some m =>
                rw [engineStepsGo_some E src fl input costs fuel pos i m hp hE] at h2 ⊢
                rw [engineRawsGo_some E src fl input fuel pos m hp hE] at h1 ⊢
                dsimp only [] at h1
                rw [syncFree] at h2
                rw [matchesGo]
                by_cases hex : t ≠ JSNum.posInf ∧ remaining.le0b
                · rw [if_pos hex] at h2
                  exact absurd h2 (by simp)
                · rw [if_neg hex] at h2 ⊢
                  rw [Bool.and_eq_true] at h2
                  obtain ⟨hA, hB⟩ := h2
                  have hBr : syncFree t mt (jsSubInt remaining (ratCeil (costs i)))
                      (engineStepsGo E src fl input costs fuel (nextPos m) (i + 1)) = true := hB
                  have hrec := ih (nextPos m) (i + 1)
                    (jsSubInt remaining (ratCeil (costs i))) h1 hBr
                  cases hdl : effectiveDeadline t mt remaining with
                  | none =>
                      simp only [functionTimeout, stepComp, hdl]
                      simp [hrec]
                  | some d =>
                      rw [hdl] at hA
                      have hAq : ¬((d : ℚ) < costs i) := by simpa using hA
                      simp only [functionTimeout, stepComp, hdl]
                      rw [if_neg hAq]
                      simp [hrec]

/-- Claim C5: for every engine, pattern and input whose matching completes
well inside the deadline (the synchronous bounded execution settles by its
normalized deadline, and the isolated token is not cancelled before the
worker settles), each synchronous operation and its isolated counterpart
return structurally identical results: `isMatch`/`isMatchAsync` the same
boolean, `firstMatch`/`firstMatchAsync` the same `Match` record or both
absent, and `matches`/`matchesAsync` the same sequence of `Match` records
in the same order — both sides are proved equal to the same canonical
value computed from the engine's raw results. -/
theorem c5_sync_isolated_agree (E : RegexEngine) (r : RegexObj) (s : String) :
    (∀ (costS costA : ℚ) (timeout : Option JSNum) (tOT : Bool) (res : Option RawMatch),
        E.execAt r.source r.flags s 0 = .ok res →
        syncCompletes costS timeout = true →
        asyncSettles (handleAsyncTimeout timeout) costA = true →
        (isMatchE E costS r s timeout tOT).1 = .ok res.isSome
          ∧ (isMatchAsyncE E costA r s timeout tOT).1 = .ok res.isSome)
      ∧ (∀ (costS costA : ℚ) (timeout : Option JSNum) (tOT : Bool) (res : Option RawMatch),
          E.execAt r.source r.flags s 0 = .ok res →
          syncCompletes costS timeout = true →
          asyncSettles (handleAsyncTimeout timeout) costA = true →
          (firstMatchE E costS r s timeout tOT).1 = .ok (res.map resultToMatch)
            ∧ (firstMatchAsyncE E costA r s timeout tOT).1 = .ok (res.map resultToMatch))
      ∧ (∀ (costs : ℕ → ℚ) (timeoutOpt matchTimeoutOpt : Option JSNum) (tOT : Bool)
            (l : List RawMatch) (times : ℕ → ℚ) (doneTime : ℚ),
          r.global = true →
          engineRaws E r.source r.flags s = (l, none) →
          syncFree (timeoutOpt.getD JSNum.posInf) (matchTimeoutOpt.getD JSNum.posInf)
            (timeoutOpt.getD JSNum.posInf) (engineSteps E r.source r.flags s costs) = true →
          asyncMatchesFree timeoutOpt l times doneTime = true →
          Except.map SyncMatchesIterable.iterate
              (matchesCallE E r s costs timeoutOpt matchTimeoutOpt tOT).1
            = .ok (l.map resultToMatch, none)
            ∧ matchesAsyncBody E r s timeoutOpt tOT times doneTime
              = (l.map resultToMatch, none)) := by
  have hclone : structuredCloneRegex r = RegexObj.mk r.source r.flags 0 := rfl
  refine ⟨?_, ?_, ?_⟩
  · intro costS costA timeout tOT res hexec hsync hasync
    have hexec1 : (execOn E (structuredCloneRegex r) s).1 = .ok res := by
      cases res <;> simp [execOn, hclone, hexec]
    have hfits : ∀ d : ℕ, normalizeTimeout timeout = some d → ¬((d : ℚ) < costS) := by
      intro d hd
      unfold syncCompletes at hsync
      rw [hd] at hsync
      simpa using hsync
    constructor
    · simp only [isMatchE, isMatchCore]
      rw [functionTimeout_completes _ _ hfits]
      simp [hexec1, Except.map]
    · simp [isMatchAsyncE, withAsyncTimeout, hasync, hexec, Except.map]
  · intro costS costA timeout tOT res hexec hsync hasync
    have hexec1 : (execOn E (structuredCloneRegex r) s).1 = .ok res := by
      cases res <;> simp [execOn, hclone, hexec]
    have hfits : ∀ d : ℕ, normalizeTimeout timeout = some d → ¬((d : ℚ) < costS) := by
      intro d hd
      unfold syncCompletes at hsync
      rw [hd] at hsync
      simpa using hsync
    constructor
    · simp only [firstMatchE, firstMatchCore]
      rw [functionTimeout_completes _ _ hfits]
      cases res <;> simp [hexec1, Except.map]
    · cases res <;>
        simp [firstMatchAsyncE, withAsyncTimeout, hasync, hexec, Except.map,
          firstMatchWorkerMatch_eq]
  · intro costs timeoutOpt matchTimeoutOpt tOT l times doneTime hg hraws hfree hafree
    have h1 : (engineRawsGo E r.source r.flags s (s.length + 1) 0).2 = none := by
      have := congrArg Prod.snd hraws
      simpa [engineRaws] using this
    have hl : (engineRawsGo E r.source r.flags s (s.length + 1) 0).1 = l := by
      have := congrArg Prod.fst hraws
      simpa [engineRaws] using this
    constructor
    · have hcall : (matchesCallE E r s costs timeoutOpt matchTimeoutOpt tOT).1
          = .ok (SyncMatchesIterable.mk E r s costs tOT
              (timeoutOpt.getD JSNum.posInf) (matchTimeoutOpt.getD JSNum.posInf)) := by
        simp [matchesCallE, hg]
      rw [hcall]
      have hiter := matchesGo_of_raws E r.source r.flags s costs tOT
        (timeoutOpt.getD JSNum.posInf) (matchTimeoutOpt.getD JSNum.posInf)
        (s.length + 1) 0 0 (timeoutOpt.getD JSNum.posInf) h1 hfree
      calc Except.map SyncMatchesIterable.iterate
              (Except.ok (SyncMatchesIterable.mk E r s costs tOT
                (timeoutOpt.getD JSNum.posInf) (matchTimeoutOpt.getD JSNum.posInf)))
          = .ok (matchesGo tOT (timeoutOpt.getD JSNum.posInf)
              (matchTimeoutOpt.getD JSNum.posInf) (timeoutOpt.getD JSNum.posInf)
              (engineSteps E r.source r.flags s costs)) := rfl
        _ = .ok (l.map resultToMatch, none) := by rw [engineSteps, hiter, hl]
    · simp only [matchesAsyncBody, hg]
      cases hact : handleAsyncTimeout timeoutOpt with
      | noTimer =>
          simp [hraws, matchesWorkerMatch_fun_eq]
      | abortNow =>
          unfold asyncMatchesFree at hafree
          rw [hact] at hafree
          exact absurd hafree (by simp)
      | armTimer d =>
          unfold asyncMatchesFree at hafree
          rw [hact] at hafree
          rw [Bool.and_eq_true] at hafree
          obtain ⟨h5, h6⟩ := hafree
          have hdel := deliverAll_complete times d l 0 h5
          simp [hraws, hdel, h5, h6, matchesWorkerMatch_fun_eq]

theorem c5_witness :
    ((isMatchE ymEngine 0 ymRegexG ("2024-01-15") none false).1
          = .ok (some ymRaw).isSome
        ∧ (isMatchAsyncE ymEngine 0 ymRegexG ("2024-01-15") none false).1
          = .ok (some ymRaw).isSome)
      ∧ ((firstMatchE ymEngine 0 ymRegexG ("2024-01-15") none false).1
          = .ok ((some ymRaw).map resultToMatch)
        ∧ (firstMatchAsyncE ymEngine 0 ymRegexG ("2024-01-15") none false).1
          = .ok ((some ymRaw).map resultToMatch))
      ∧ (Except.map SyncMatchesIterable.iterate
            (matchesCallE ymEngine ymRegexG ("2024-01-15") (fun _ => 0) none none false).1
          = .ok ([ymRaw].map resultToMatch, none)
        ∧ matchesAsyncBody ymEngine ymRegexG ("2024-01-15") none false (fun _ => 0) 0
          = ([ymRaw].map resultToMatch, none)) :=
  ⟨(c5_sync_isolated_agree ymEngine ymRegexG ("2024-01-15")).1 0 0 none false
      (some ymRaw) rfl rfl rfl,
    (c5_sync_isolated_agree ymEngine ymRegexG ("2024-01-15")).2.1 0 0 none false
      (some ymRaw) rfl rfl rfl,
    (c5_sync_isolated_agree ymEngine ymRegexG ("2024-01-15")).2.2 (fun _ => 0) none none
      false [ymRaw] (fun _ => 0) 0 rfl rfl rfl rfl⟩

end SuperRegex
